import Mathlib

/-!
Verification of the morpholingo fetch-and-filter pipeline.

Python text (str) is modelled as the list of its Unicode code points
(List Char); UTF-8 byte sizes are computed per code point.  External
collaborators (the aiohttp network layer, the aiofiles disk layer and the
BeautifulSoup HTML parse) are modelled by their observable outcomes: an HTTP
response is a status code plus a body, a disk write either succeeds or
raises, and a parsed HTML document is represented by the anchor titles and
the paragraph texts the parser finds in it (in document order).
-/

namespace Morpholingo

set_option maxRecDepth 4000

/-- Text is modelled as the list of Unicode code points of a Python str. -/
abbrev Text := List Char

/-- utf8len from src/utils/strutils.py: the UTF-8 encoded byte size of a
string, len(s.encode("utf-8")). -/
def utf8len (s : Text) : Nat := (s.map Char.utf8Size).sum

/-! ## Cleaner (src/preprocessing/cleaners.py) -/

/-- Python str.replace(pat, "") for a nonempty pattern p :: ps, written with
an explicit skip counter so the recursion is structural in the text (and so
computes by kernel reduction): scan left to right; whenever the pattern is a
prefix of the remaining text, delete the whole occurrence (the head now, the
following ps.length characters through the skip counter) and continue after
it (non-overlapping occurrences); otherwise keep the head character. -/
def removeAllAux (p : Char) (ps : List Char) : Nat → Text → Text
  | _, [] => []
  | Nat.succ k, _ :: rest => removeAllAux p ps k rest
  | 0, c :: rest =>
    if (p :: ps).isPrefixOf (c :: rest) then removeAllAux p ps ps.length rest
    else c :: removeAllAux p ps 0 rest

/-- Python str.replace(pat, "") for a nonempty pattern, with no characters
pending deletion. -/
def removeAll (p : Char) (ps : List Char) (s : Text) : Text :=
  removeAllAux p ps 0 s

/-- Python str.replace(pat, "") (the empty-pattern case is never used by the
cleaner, whose patterns are the nonempty literals "[edit]" and
"[citation needed]"). -/
def replaceDel (pat : Text) (s : Text) : Text :=
  match pat with
  | [] => s
  | p :: ps => removeAll p ps s

/-- The code point ranges (inclusive) of the Unicode general category Nd
(decimal digit numbers), Unicode 15.0: ASCII digits, Arabic-Indic and
extended Arabic-Indic digits, NKo, the Indic scripts, Thai, Lao, Tibetan,
Myanmar, Khmer, Mongolian and the other Nd blocks up to the mathematical,
Adlam and segmented digits in the supplementary planes. -/
def ndRanges : List (Nat × Nat) :=
  [(0x30, 0x39), (0x660, 0x669), (0x6F0, 0x6F9), (0x7C0, 0x7C9),
   (0x966, 0x96F), (0x9E6, 0x9EF), (0xA66, 0xA6F), (0xAE6, 0xAEF),
   (0xB66, 0xB6F), (0xBE6, 0xBEF), (0xC66, 0xC6F), (0xCE6, 0xCEF),
   (0xD66, 0xD6F), (0xDE6, 0xDEF), (0xE50, 0xE59), (0xED0, 0xED9),
   (0xF20, 0xF29), (0x1040, 0x1049), (0x1090, 0x1099), (0x17E0, 0x17E9),
   (0x1810, 0x1819), (0x1946, 0x194F), (0x19D0, 0x19D9), (0x1A80, 0x1A89),
   (0x1A90, 0x1A99), (0x1B50, 0x1B59), (0x1BB0, 0x1BB9), (0x1C40, 0x1C49),
   (0x1C50, 0x1C59), (0xA620, 0xA629), (0xA8D0, 0xA8D9), (0xA900, 0xA909),
   (0xA9D0, 0xA9D9), (0xA9F0, 0xA9F9), (0xAA50, 0xAA59), (0xABF0, 0xABF9),
   (0xFF10, 0xFF19), (0x104A0, 0x104A9), (0x10D30, 0x10D39),
   (0x11066, 0x1106F), (0x110F0, 0x110F9), (0x11136, 0x1113F),
   (0x111D0, 0x111D9), (0x112F0, 0x112F9), (0x11450, 0x11459),
   (0x114D0, 0x114D9), (0x11650, 0x11659), (0x116C0, 0x116C9),
   (0x11730, 0x11739), (0x118E0, 0x118E9), (0x11950, 0x11959),
   (0x11C50, 0x11C59), (0x11D50, 0x11D59), (0x11DA0, 0x11DA9),
   (0x11F50, 0x11F59), (0x16A60, 0x16A69), (0x16AC0, 0x16AC9),
   (0x16B50, 0x16B59), (0x1D7CE, 0x1D7FF), (0x1E140, 0x1E149),
   (0x1E2F0, 0x1E2F9), (0x1E4F0, 0x1E4F9), (0x1E950, 0x1E959),
   (0x1FBF0, 0x1FBF9)]

/-- What Python's regex class \d matches in a str pattern without re.ASCII,
as in the compiled WIKI_REF_RE: any Unicode decimal digit, i.e. any code
point of general category Nd — not only the ASCII digits 0-9. -/
def isPyDigit (c : Char) : Bool :=
  ndRanges.any (fun r => decide (r.1 ≤ c.toNat) && decide (c.toNat ≤ r.2))

/-- Length of the match of the compiled regex WIKI_REF_RE = \[\d{1,3}\] at
the head of the text, if any, where \d matches any Unicode decimal digit
(category Nd, isPyDigit).  The regex matches at a position exactly when the
text has an opening bracket, then d leading digits with 1 &le; d &le; 3,
then a closing bracket directly after those digits (greedy matching of
\d{1,3} with backtracking: if more than 3 digits follow the bracket no
backtracked alternative can reach the closing bracket, since the character
after fewer digits is again a digit). -/
def refMatchLen : Text → Option Nat
  | '[' :: rest =>
    let d := (rest.takeWhile isPyDigit).length
    if 1 ≤ d ∧ d ≤ 3 ∧ (rest.drop d).head? = some ']' then some (d + 2) else none
  | _ => none

/-- Python re.sub(WIKI_REF_RE, "", s): scan left to right, delete each
leftmost non-overlapping match of the reference-marker regex.  Written with
a skip counter (the n - 1 characters of a length-n match that follow its
first character) so the recursion is structural in the text. -/
def removeRefAux : Nat → Text → Text
  | _, [] => []
  | Nat.succ k, _ :: rest => removeRefAux k rest
  | 0, c :: rest =>
    match refMatchLen (c :: rest) with
    | some n => removeRefAux (n - 1) rest
    | none => c :: removeRefAux 0 rest

/-- Python re.sub(WIKI_REF_RE, "", s), with no characters pending
deletion. -/
def removeRef (s : Text) : Text := removeRefAux 0 s

/-- The literal pattern "[edit]" removed by the cleaner. -/
def editPattern : Text := ['[', 'e', 'd', 'i', 't', ']']

/-- The literal pattern "[citation needed]" removed by the cleaner. -/
def citationPattern : Text :=
  ['[', 'c', 'i', 't', 'a', 't', 'i', 'o', 'n', ' ', 'n', 'e', 'e', 'd', 'e', 'd', ']']

/-- clean_wikipedia from src/preprocessing/cleaners.py: remove the literal
"[edit]" strings, then the "[d]"-style (1-to-3-digit) reference markers,
then the literal "[citation needed]" strings. -/
def clean_wikipedia (text : Text) : Text :=
  let cleaned_content := replaceDel editPattern text
  let cleaned_content2 := removeRef cleaned_content
  replaceDel citationPattern cleaned_content2

/-- Python substring containment (pat in s) for the cleaner's patterns:
true when pat is a prefix of some suffix of s. -/
def containsSub (pat : Text) : Text → Bool
  | [] => pat.isEmpty
  | c :: rest => pat.isPrefixOf (c :: rest) || containsSub pat rest

/-- Whether the reference-marker regex WIKI_REF_RE matches anywhere in the
text. -/
def hasRef : Text → Bool
  | [] => false
  | c :: rest => (refMatchLen (c :: rest)).isSome || hasRef rest

/-- No occurrence of any of the three cleaning patterns in the text. -/
def patternFree (s : Text) : Bool :=
  !(containsSub editPattern s) && !(hasRef s) && !(containsSub citationPattern s)

/-! ## Collector (src/collector.py) -/

/-- chunk from src/collector.py, at the value level: if the chunk size
exceeds the total, the single chunk [total]; otherwise floor(total/chunksize)
chunks of size chunksize plus, when total mod chunksize is nonzero, one final
chunk of the remainder.  (The source renders the multi-chunk values as
decimal strings before returning them; their numeric values are modelled
here.) -/
def chunk (total chunksize : Nat) : List Nat :=
  if chunksize > total then [total]
  else
    let factor := total / chunksize
    let modulo := total % chunksize
    let product := factor * chunksize
    let chunk_list := List.replicate factor chunksize
    if modulo > 0 then chunk_list ++ [total - product] else chunk_list

/-- get_filepath (collector.py _get_filepath): the destination path built
from the pageid request parameter and the directory path,
os.path.join(dirpath, f"{pageid}.json"). -/
def get_filepath (pageid : String) (dirpath : String) : String :=
  dirpath ++ "/" ++ pageid ++ ".json"

/-- MLRes from src/collector.py.  The params dict is represented by its
pageid entry, the only request parameter the pipeline reads back (for the
destination path and for error messages). -/
structure MLRes where
  url : String
  pageid : String
  filepath : Option String
  http_status : Nat
  write_success : Bool
deriving DecidableEq, Repr

/-- async_fetch from src/collector.py, over an abstract HTTP response
(status, body): returns (api_url, params, status, text) where text is None
unless the status is 200. -/
def async_fetch (url pageid : String) (status : Nat) (body : String) :
    String × String × Nat × Option String :=
  if status ≠ 200 then (url, pageid, status, none) else (url, pageid, status, some body)

/-- async_fetch_and_write from src/collector.py.  The aiofiles disk write is
external; writeOk records whether it succeeds.  A non-200 status yields an
outcome with no filepath and write_success False; a 200 status computes the
destination path, writes, and yields write_success True; a failed write
raises (Except.error), so the task ends with an exception instead of an
MLRes. -/
def async_fetch_and_write (url pageid dirpath : String) (status : Nat)
    (body : String) (writeOk : Bool) : Except String MLRes :=
  match async_fetch url pageid status body with
  | (u, p, st, _text) =>
    if st ≠ 200 then
      Except.ok { url := u, pageid := p, filepath := none, http_status := st,
                  write_success := false }
    else if writeOk then
      Except.ok { url := u, pageid := p, filepath := some (get_filepath p dirpath),
                  http_status := st, write_success := true }
    else
      Except.error "write raised"

/-- The outcome of one gathered asyncio task under return_exceptions=True:
either the exception it raised (task.exception() is not None) or its MLRes
result. -/
inductive TaskOutcome where
  | exn (msg : String)
  | res (r : MLRes)
deriving DecidableEq, Repr

/-- The result of the scan over gathered tasks in async_fetch_files: return
normally, or raise AIOError from a task exception, or raise AIOError for a
non-200 status (the message names the url, the pageid and the status). -/
inductive BatchResult where
  | ok
  | errExn (msg : String)
  | errStatus (url pageid : String) (status : Nat)
deriving DecidableEq, Repr

/-- The post-gather loop of async_fetch_files (src/collector.py lines
98-109): iterate over the tasks in input order; for each task, if it raised,
raise an AIOError carrying that exception message; else if its result's
http_status is not 200, raise an AIOError naming its url, pageid and status;
otherwise continue with the next task. -/
def async_fetch_files_scan : List TaskOutcome → BatchResult
  | [] => BatchResult.ok
  | TaskOutcome.exn m :: _ => BatchResult.errExn m
  | TaskOutcome.res r :: rest =>
    if r.http_status ≠ 200 then BatchResult.errStatus r.url r.pageid r.http_status
    else async_fetch_files_scan rest

/-- Stated from claim C1's words, not from the source, for comparison with
async_fetch_files_scan: first scan all outcomes for an exception and raise
from it if one exists; only otherwise scan for a non-200 status, so that an
exception on any item takes priority over a non-200 status on any other
item. -/
def specAggregate (ts : List TaskOutcome) : BatchResult :=
  match ts.findSome? (fun t => match t with
    | TaskOutcome.exn m => some m
    | TaskOutcome.res _ => none) with
  | some m => BatchResult.errExn m
  | none =>
    match ts.findSome? (fun t => match t with
      | TaskOutcome.res r =>
        if r.http_status ≠ 200 then some (r.url, r.pageid, r.http_status) else none
      | TaskOutcome.exn _ => none) with
    | some (u, p, st) => BatchResult.errStatus u p st
    | none => BatchResult.ok

/-- A gathered task finished without failure: it raised no exception and its
result carries HTTP status 200. -/
def taskGood : TaskOutcome → Bool
  | TaskOutcome.exn _ => false
  | TaskOutcome.res r => r.http_status == 200

/-- The AIOError the scan raises for a failing task: the exception's message
if the task raised, else the status error naming its url, pageid and
status. -/
def taskError : TaskOutcome → BatchResult
  | TaskOutcome.exn m => BatchResult.errExn m
  | TaskOutcome.res r => BatchResult.errStatus r.url r.pageid r.http_status

/-! ## Culler (src/culler.py) -/

/-- Modelled from the spec: the BeautifulSoup best-effort parse of the raw
markup is an external library, not code under src, so a persisted document
is modelled by its parse-relevant content — what the parser finds in it:
the title attributes of its anchor (a) elements and the text content of its
paragraph (p) elements in document order.  Per the spec the parse must
tolerate any string input (malformed or empty markup degrades to a document
with zero paragraph elements rather than an error). -/
structure HtmlDoc where
  anchorTitles : List String
  paragraphs : List Text
deriving DecidableEq

/-- WIKI_STUB_TITLES from src/culler.py: the localized title attribute of
the stub-marker anchor, per language tag. -/
def WIKI_STUB_TITLES : List (String × String) :=
  [("en", "Wikipedia:Stub"), ("he", "ויקיפדיה:קצרמר")]

/-- is_exclusion_stub from src/culler.py: if the language tag is in
WIKI_STUB_TITLES, the document is a stub exactly when it has an anchor whose
title attribute equals the locale's stub marker (soup.find("a",
{"title": stub_title})); for any other language tag the answer is False. -/
def is_exclusion_stub (doc : HtmlDoc) (lang_tag : String) : Bool :=
  match WIKI_STUB_TITLES.lookup lang_tag with
  | some stub_title => doc.anchorTitles.contains stub_title
  | none => false

/-- parse_html_p_content from src/parsers/html.py over a parsed document:
if the parser found at least one paragraph element, the newline-joined
concatenation of their text contents in document order, else None. -/
def parse_html_p_content (doc : HtmlDoc) : Option Text :=
  if doc.paragraphs.length > 0 then some (List.intercalate ['\n'] doc.paragraphs)
  else none

/-- is_exclusion_empty_content from src/culler.py: the parsed paragraph
content is None. -/
def is_exclusion_empty_content (parsed_p_tag_content : Option Text) : Bool :=
  parsed_p_tag_content.isNone

/-- is_exclusion_content_size from src/culler.py: the UTF-8 byte length of
the cleaned content is strictly below the fixed threshold 275. -/
def is_exclusion_content_size (parsed_p_tag_content : Text) : Bool :=
  if utf8len (clean_wikipedia parsed_p_tag_content) < 275 then true else false

/-- The per-document exclusion verdict (spec: ExclusionVerdict). -/
inductive Verdict where
  | stub
  | empty
  | belowSize
  | retained
deriving DecidableEq, Repr

/-- The per-document decision chain of remove_files (src/culler.py lines
83-97): first is_exclusion_stub; else parse the paragraph content and check
is_exclusion_empty_content; else check is_exclusion_content_size on the
parsed content (the none branch of the match is unreachable there because
the empty-content check already confirmed the parsed content is not None,
mirroring the comment in the source). -/
def classify (lang_tag : String) (doc : HtmlDoc) : Verdict :=
  if is_exclusion_stub doc lang_tag then Verdict.stub
  else
    let parsed_p_tag_content := parse_html_p_content doc
    if is_exclusion_empty_content parsed_p_tag_content then Verdict.empty
    else
      match parsed_p_tag_content with
      | some c =>
        if is_exclusion_content_size c then Verdict.belowSize else Verdict.retained
      | none => Verdict.empty

/-- The classification loop of remove_files: process the files in input
order, appending each excluded file's path to remove_path_list and bumping
the counter of the criterion that matched
(stub_file_count, empty_content_count, below_content_size_count). -/
def removeFilesLoop (lang_tag : String) :
    List (String × HtmlDoc) → List String × Nat × Nat × Nat
  | [] => ([], 0, 0, 0)
  | (fp, doc) :: rest =>
    let r := removeFilesLoop lang_tag rest
    match classify lang_tag doc with
    | Verdict.stub => (fp :: r.1, r.2.1 + 1, r.2.2.1, r.2.2.2)
    | Verdict.empty => (fp :: r.1, r.2.1, r.2.2.1 + 1, r.2.2.2)
    | Verdict.belowSize => (fp :: r.1, r.2.1, r.2.2.1, r.2.2.2 + 1)
    | Verdict.retained => r

/-- remove_files from src/culler.py: classify every file, then (deletion
deferred until the classification pass is complete) remove every file whose
path was collected in remove_path_list; the function's return value is
removed_file_count, the sum of the three criterion counters.  The directory
state is modelled as the list of (path, parsed document) pairs; the first
component of the result is the directory after the deletions and the second
is the returned count. -/
def remove_files (files : List (String × HtmlDoc)) (lang_tag : String) :
    List (String × HtmlDoc) × Nat :=
  let r := removeFilesLoop lang_tag files
  (files.filter (fun f => !(r.1.contains f.1)), r.2.1 + r.2.2.1 + r.2.2.2)

/-- cull from src/culler.py: run remove_files and return its
removed_file_count. -/
def cull (filepaths : List (String × HtmlDoc)) (lang_tag : String) : Nat :=
  (remove_files filepaths lang_tag).2

/-! ## Lemmas about the cleaner -/

theorem removeAllAux_sublist (p : Char) (ps : List Char) :
    ∀ (k : Nat) (s : Text), List.Sublist (removeAllAux p ps k s) s := by
  intro k s
  induction s generalizing k with
  | nil => simp [removeAllAux]
  | cons c rest ih =>
    cases k with
    | succ k => exact (ih k).cons c
    | zero =>
      simp only [removeAllAux]
      split
      · exact (ih ps.length).cons c
      · exact (ih 0).cons₂ c

theorem removeRefAux_sublist :
    ∀ (k : Nat) (s : Text), List.Sublist (removeRefAux k s) s := by
  intro k s
  induction s generalizing k with
  | nil => simp [removeRefAux]
  | cons c rest ih =>
    cases k with
    | succ k => exact (ih k).cons c
    | zero =>
      simp only [removeRefAux]
      split
      · exact (ih _).cons c
      · exact (ih 0).cons₂ c

theorem replaceDel_sublist (pat : Text) (s : Text) :
    List.Sublist (replaceDel pat s) s := by
  cases pat with
  | nil => exact (List.Sublist.refl s)
  | cons p ps => exact removeAllAux_sublist p ps 0 s

theorem clean_wikipedia_sublist (s : Text) :
    List.Sublist (clean_wikipedia s) s := by
  simp only [clean_wikipedia]
  exact ((replaceDel_sublist citationPattern _).trans
    (removeRefAux_sublist 0 _)).trans (replaceDel_sublist editPattern s)

theorem removeAll_of_not_contains (p : Char) (ps : List Char) :
    ∀ s : Text, containsSub (p :: ps) s = false → removeAll p ps s = s := by
  intro s
  induction s with
  | nil => intro _; simp [removeAll, removeAllAux]
  | cons c rest ih =>
    intro h
    rw [containsSub] at h
    simp only [Bool.or_eq_false_iff] at h
    rw [removeAll, removeAllAux, if_neg (by simp [h.1])]
    rw [removeAll] at ih
    rw [ih h.2]

theorem removeRef_of_not_hasRef : ∀ s : Text, hasRef s = false → removeRef s = s := by
  intro s
  induction s with
  | nil => intro _; simp [removeRef, removeRefAux]
  | cons c rest ih =>
    intro h
    rw [hasRef] at h
    rcases hr : refMatchLen (c :: rest) with _ | n
    · rw [hr] at h
      simp only [Option.isSome_none, Bool.false_or] at h
      rw [removeRef] at ih ⊢
      simp only [removeRefAux, hr]
      rw [ih h]
    · rw [hr] at h
      simp at h

theorem replaceDel_of_not_contains (pat : Text) (s : Text) (hne : pat ≠ [])
    (h : containsSub pat s = false) : replaceDel pat s = s := by
  cases pat with
  | nil => exact absurd rfl hne
  | cons p ps => exact removeAll_of_not_contains p ps s h

/-! ## Claims about the cleaner -/

/-- C10: cleaning never lengthens text: for every string x, the UTF-8 byte
length of clean_wikipedia x is at most the UTF-8 byte length of x, since
each of the three cleaning steps only deletes substrings and inserts
nothing. -/
theorem c10_clean_never_lengthens (s : Text) :
    utf8len (clean_wikipedia s) ≤ utf8len s :=
  List.Sublist.sum_le_sum ((clean_wikipedia_sublist s).map Char.utf8Size)
    (fun a _ => Nat.zero_le a)

/-- C7 counterexample: the cleaner is not idempotent.  On the input
"[ed[edit]it]", deleting the inner "[edit]" splices the surrounding
characters into a new "[edit]" occurrence, so the first pass returns
"[edit]" while a second pass returns the empty string. -/
theorem c7_counterexample :
    clean_wikipedia (clean_wikipedia
        ['[', 'e', 'd', '[', 'e', 'd', 'i', 't', ']', 'i', 't', ']']) ≠
      clean_wikipedia ['[', 'e', 'd', '[', 'e', 'd', 'i', 't', ']', 'i', 't', ']'] := by
  decide

/-- C7 amended: a cleaning pass can splice characters into new pattern
occurrences, so clean_wikipedia is not idempotent in general; it is
idempotent on every input whose cleaned form contains no occurrence of any
of the three patterns (no "[edit]", no bracketed marker of 1 to 3 Unicode
decimal digits, no "[citation needed]"). -/
theorem c7_amended_idempotent_on_pattern_free (x : Text)
    (h : patternFree (clean_wikipedia x) = true) :
    clean_wikipedia (clean_wikipedia x) = clean_wikipedia x := by
  simp only [patternFree, Bool.and_eq_true, Bool.not_eq_true',
    Bool.not_eq_false'] at h
  obtain ⟨⟨h1, h2⟩, h3⟩ := h
  conv_lhs => rw [clean_wikipedia]
  rw [replaceDel_of_not_contains editPattern _ (by simp [editPattern]) h1,
    removeRef_of_not_hasRef _ h2,
    replaceDel_of_not_contains citationPattern _ (by simp [citationPattern]) h3]

theorem c7_amended_witness :
    patternFree (clean_wikipedia ['a', '[', '1', ']', 'b']) = true ∧
    clean_wikipedia (clean_wikipedia ['a', '[', '1', ']', 'b']) =
      clean_wikipedia ['a', '[', '1', ']', 'b'] :=
  ⟨by decide, c7_amended_idempotent_on_pattern_free _ (by decide)⟩

/-- C4: the below-size criterion excludes a document exactly when the UTF-8
byte length of the cleaned extracted text is strictly below the fixed
constant 275; a cleaned text of exactly 274 bytes (274 ASCII characters,
left unchanged by the cleaner) is excluded and one of exactly 275 bytes is
retained. -/
theorem c4_below_size_threshold :
    (∀ s : Text,
      is_exclusion_content_size s = true ↔ utf8len (clean_wikipedia s) < 275) ∧
    is_exclusion_content_size (List.replicate 274 'a') = true ∧
    is_exclusion_content_size (List.replicate 275 'a') = false ∧
    utf8len (clean_wikipedia (List.replicate 274 'a')) = 274 ∧
    utf8len (clean_wikipedia (List.replicate 275 'a')) = 275 := by
  refine ⟨fun s => ?_, by decide, by decide, by decide, by decide⟩
  simp [is_exclusion_content_size]

theorem c4_witness :
    utf8len (clean_wikipedia (List.replicate 274 'a')) < 275 :=
  (c4_below_size_threshold.1 _).mp c4_below_size_threshold.2.1

/-! ## Claims about chunking -/

theorem chunk_sum (total : Nat) : (chunk total 500).sum = total := by
  simp only [chunk]
  by_cases h : 500 > total
  · rw [if_pos h]; simp
  · rw [if_neg h]
    by_cases hm : total % 500 > 0
    · rw [if_pos hm]
      rw [List.sum_append, List.sum_replicate, smul_eq_mul]
      simp only [List.sum_cons, List.sum_nil]
      omega
    · rw [if_neg hm]
      rw [List.sum_replicate, smul_eq_mul]
      omega

theorem chunk_dropLast (total x : Nat) (hx : x ∈ (chunk total 500).dropLast) :
    x = 500 := by
  simp only [chunk] at hx
  by_cases h : 500 > total
  · rw [if_pos h] at hx
    simp at hx
  · rw [if_neg h] at hx
    by_cases hm : total % 500 > 0
    · rw [if_pos hm, List.dropLast_concat] at hx
      exact List.eq_of_mem_replicate hx
    · rw [if_neg hm] at hx
      exact List.eq_of_mem_replicate ((List.dropLast_sublist _).subset hx)

theorem chunk_getLast (total : Nat) (h1 : 1 ≤ total) :
    ∃ l, (chunk total 500).getLast? = some l ∧ 0 < l ∧ l ≤ 500 := by
  simp only [chunk]
  by_cases h : 500 > total
  · rw [if_pos h]
    exact ⟨total, by simp, h1, by omega⟩
  · rw [if_neg h]
    by_cases hm : total % 500 > 0
    · rw [if_pos hm]
      refine ⟨total - total / 500 * 500, List.getLast?_concat _, by omega, by omega⟩
    · rw [if_neg hm]
      obtain ⟨k, hk⟩ : ∃ k, total / 500 = k + 1 := ⟨total / 500 - 1, by omega⟩
      rw [hk, List.replicate_succ']
      exact ⟨500, List.getLast?_concat _, by norm_num, le_refl _⟩

theorem chunk_of_le (total : Nat) (h : total ≤ 500) : chunk total 500 = [total] := by
  rcases Nat.lt_or_ge total 500 with hlt | hge
  · simp only [chunk]
    rw [if_pos hlt]
  · have heq : total = 500 := le_antisymm h hge
    subst heq
    decide

/-- C3 counterexample: at total = 0 the chunk list is [0], whose last
element is the value 0, which is not in the interval (0, 500]; the claim's
last-element clause fails at total = 0. -/
theorem c3_counterexample :
    chunk 0 500 = [0] ∧ (chunk 0 500).getLast? = some 0 ∧ ¬ (0 : Nat) < 0 :=
  ⟨by decide, by decide, by decide⟩

/-- C3 (amended): for every total with fixed max = 500, the chunk list sums
to total; every element except possibly the last equals 500; when total is
at least 1 the last element is in (0, 500]; if total is at most 500 the list
is exactly [total]; and chunk 0 500 = [0] (so for total = 0 the last element
is 0, outside (0, 500]). -/
theorem c3_chunking_law (total : Nat) :
    (chunk total 500).sum = total ∧
    (∀ x ∈ (chunk total 500).dropLast, x = 500) ∧
    (1 ≤ total → ∃ l, (chunk total 500).getLast? = some l ∧ 0 < l ∧ l ≤ 500) ∧
    (total ≤ 500 → chunk total 500 = [total]) ∧
    chunk 0 500 = [0] :=
  ⟨chunk_sum total, fun x hx => chunk_dropLast total x hx, chunk_getLast total,
    chunk_of_le total, by decide⟩

theorem c3_chunking_law_witness :
    1 ≤ 1234 ∧ ∃ l, (chunk 1234 500).getLast? = some l ∧ 0 < l ∧ l ≤ 500 :=
  ⟨by decide, (c3_chunking_law 1234).2.2.1 (by decide)⟩

/-! ## Claims about the fetch pipeline -/

theorem scan_ok_iff (ts : List TaskOutcome) :
    async_fetch_files_scan ts = BatchResult.ok ↔ ∀ t ∈ ts, taskGood t = true := by
  induction ts with
  | nil => simp [async_fetch_files_scan]
  | cons t rest ih =>
    cases t with
    | exn m => simp [async_fetch_files_scan, taskGood]
    | res r =>
      by_cases h : r.http_status = 200
      · simp [async_fetch_files_scan, taskGood, h, ih]
      · simp [async_fetch_files_scan, taskGood, h]

theorem scan_append_good (pre rest : List TaskOutcome)
    (h : ∀ x ∈ pre, taskGood x = true) :
    async_fetch_files_scan (pre ++ rest) = async_fetch_files_scan rest := by
  induction pre with
  | nil => rfl
  | cons t pre ih =>
    have ht := h t (by simp)
    cases t with
    | exn m => simp [taskGood] at ht
    | res r =>
      have h200 : r.http_status = 200 := by simpa [taskGood] using ht
      rw [List.cons_append]
      show async_fetch_files_scan (TaskOutcome.res r :: (pre ++ rest)) = _
      rw [async_fetch_files_scan, if_neg (by simp [h200])]
      exact ih (fun x hx => h x (by simp [hx]))

theorem scan_first_bad (t : TaskOutcome) (post : List TaskOutcome)
    (hbad : taskGood t = false) :
    async_fetch_files_scan (t :: post) = taskError t := by
  cases t with
  | exn m => rfl
  | res r =>
    have hne : r.http_status ≠ 200 := by simpa [taskGood] using hbad
    rw [async_fetch_files_scan, if_pos hne]
    rfl

/-- C1 counterexample: with gathered outcomes [item with status 404, item
that raised "boom"], the scan raises the status error of the first item, and
not a batch error carrying the later exception's message as the claim's
two-phase scan (specAggregate, stated from the claim) would; an exception on
one item does not take priority over a non-200 status on an earlier item. -/
theorem c1_counterexample :
    async_fetch_files_scan
        [TaskOutcome.res ⟨"u", "1", none, 404, false⟩, TaskOutcome.exn "boom"] =
      BatchResult.errStatus "u" "1" 404 ∧
    specAggregate
        [TaskOutcome.res ⟨"u", "1", none, 404, false⟩, TaskOutcome.exn "boom"] =
      BatchResult.errExn "boom" ∧
    async_fetch_files_scan
        [TaskOutcome.res ⟨"u", "1", none, 404, false⟩, TaskOutcome.exn "boom"] ≠
      specAggregate
        [TaskOutcome.res ⟨"u", "1", none, 404, false⟩, TaskOutcome.exn "boom"] := by
  refine ⟨by decide, by decide, by decide⟩

/-- C1 (amended): after all per-item tasks complete (their exceptions
captured, so no item's failure prevents siblings from completing), the
pipeline inspects the collected outcomes in item order and raises for the
first failing item: if that item raised an exception, the batch error
carries that exception's message; otherwise the batch error identifies that
item's document id and non-200 status code.  It returns normally exactly
when every item is exception-free with status 200.  An exception is checked
before the status only within one item, not across items. -/
theorem c1_scan_order (ts : List TaskOutcome) :
    (async_fetch_files_scan ts = BatchResult.ok ↔ ∀ t ∈ ts, taskGood t = true) ∧
    (∀ pre t post, ts = pre ++ t :: post → (∀ x ∈ pre, taskGood x = true) →
      taskGood t = false → async_fetch_files_scan ts = taskError t) := by
  refine ⟨scan_ok_iff ts, ?_⟩
  intro pre t post hts hpre hbad
  subst hts
  rw [scan_append_good pre _ hpre, scan_first_bad t post hbad]

theorem c1_scan_order_witness :
    async_fetch_files_scan [TaskOutcome.res ⟨"u", "2", some "p", 200, true⟩,
        TaskOutcome.exn "boom"] = BatchResult.errExn "boom" :=
  (c1_scan_order _).2 [TaskOutcome.res ⟨"u", "2", some "p", 200, true⟩]
    (TaskOutcome.exn "boom") [] rfl (by decide) (by decide)

/-- C8: each requested item yields exactly one outcome value; its
write_success is true iff the status is 200 and the disk write succeeded;
a non-200 status yields write_success false with no destination path; a
persisted outcome's destination path is deterministically
dirpath/pageid.json (and a 200-status item whose write fails ends in a
captured exception instead of an outcome). -/
theorem c8_fetch_outcome (url pageid dirpath : String) (status : Nat)
    (body : String) (writeOk : Bool) :
    (status ≠ 200 →
      async_fetch_and_write url pageid dirpath status body writeOk =
        Except.ok ⟨url, pageid, none, status, false⟩) ∧
    (status = 200 → writeOk = true →
      async_fetch_and_write url pageid dirpath status body writeOk =
        Except.ok ⟨url, pageid, some (get_filepath pageid dirpath), status, true⟩) ∧
    (status = 200 → writeOk = false →
      async_fetch_and_write url pageid dirpath status body writeOk =
        Except.error "write raised") ∧
    (∀ r, async_fetch_and_write url pageid dirpath status body writeOk =
        Except.ok r →
      (r.write_success = true ↔ (status = 200 ∧ writeOk = true)) ∧
      (status ≠ 200 → r.write_success = false ∧ r.filepath = none) ∧
      (r.write_success = true → r.filepath = some (get_filepath pageid dirpath)) ∧
      r.http_status = status ∧ r.pageid = pageid ∧ r.url = url) := by
  by_cases h : status = 200
  · subst h
    cases writeOk with
    | true =>
      refine ⟨fun hc => absurd rfl hc, fun _ _ => rfl, fun _ hc => by simp at hc,
        fun r hr => ?_⟩
      have hrr : r = ⟨url, pageid, some (get_filepath pageid dirpath), 200, true⟩ := by
        simpa [async_fetch_and_write, async_fetch] using hr.symm
      subst hrr
      simp
    | false =>
      refine ⟨fun hc => absurd rfl hc, fun _ hc => by simp at hc, fun _ _ => rfl,
        fun r hr => ?_⟩
      exact absurd hr (by simp [async_fetch_and_write, async_fetch])
  · refine ⟨fun _ => ?_, fun hc => absurd hc h, fun hc => absurd hc h, fun r hr => ?_⟩
    · simp [async_fetch_and_write, async_fetch, h]
    · have hrr : r = ⟨url, pageid, none, status, false⟩ := by
        simpa [async_fetch_and_write, async_fetch, h] using hr.symm
      subst hrr
      simp [h]

theorem c8_fetch_outcome_witness :
    ((404 : Nat) ≠ 200 ∧
      async_fetch_and_write "u" "7" "d" 404 "body" true =
        Except.ok ⟨"u", "7", none, 404, false⟩) ∧
    ((200 : Nat) = 200 ∧
      async_fetch_and_write "u" "7" "d" 200 "body" true =
        Except.ok ⟨"u", "7", some (get_filepath "7" "d"), 200, true⟩) :=
  ⟨⟨by decide, (c8_fetch_outcome "u" "7" "d" 404 "body" true).1 (by decide)⟩,
    ⟨rfl, (c8_fetch_outcome "u" "7" "d" 200 "body" true).2.1 rfl rfl⟩⟩

/-! ## Lemmas about the exclusion filter -/

theorem removeFilesLoop_eq (lang : String) (files : List (String × HtmlDoc)) :
    removeFilesLoop lang files =
      ((files.filter
          (fun f => !(classify lang f.2 == Verdict.retained))).map Prod.fst,
        files.countP (fun f => classify lang f.2 == Verdict.stub),
        files.countP (fun f => classify lang f.2 == Verdict.empty),
        files.countP (fun f => classify lang f.2 == Verdict.belowSize)) := by
  induction files with
  | nil => rfl
  | cons f rest ih =>
    obtain ⟨fp, doc⟩ := f
    rw [removeFilesLoop, ih]
    rcases hc : classify lang doc with _ | _ | _ | _ <;>
      simp [List.filter_cons, List.countP_cons, hc]

theorem countP_verdicts (lang : String) (files : List (String × HtmlDoc)) :
    files.countP (fun f => classify lang f.2 == Verdict.stub) +
      files.countP (fun f => classify lang f.2 == Verdict.empty) +
      files.countP (fun f => classify lang f.2 == Verdict.belowSize) =
      files.countP (fun f => !(classify lang f.2 == Verdict.retained)) := by
  induction files with
  | nil => rfl
  | cons f rest ih =>
    simp only [List.countP_cons]
    rcases hc : classify lang f.2 with _ | _ | _ | _ <;> simp [hc] <;> omega

theorem remove_files_ret (lang : String) (files : List (String × HtmlDoc)) :
    (remove_files files lang).2 =
      files.countP (fun f => !(classify lang f.2 == Verdict.retained)) := by
  simp only [remove_files, removeFilesLoop_eq]
  exact countP_verdicts lang files

theorem remove_files_store (lang : String) (files : List (String × HtmlDoc))
    (hnd : (files.map Prod.fst).Nodup) :
    (remove_files files lang).1 =
      files.filter (fun f => classify lang f.2 == Verdict.retained) := by
  simp only [remove_files, removeFilesLoop_eq]
  apply List.filter_congr
  intro f hf
  by_cases hcf : classify lang f.2 = Verdict.retained
  · have hnotmem : f.1 ∉ (files.filter
        (fun g => !(classify lang g.2 == Verdict.retained))).map Prod.fst := by
      intro hmem
      obtain ⟨g, hgmem, hgeq⟩ := List.mem_map.1 hmem
      have hgfil := List.mem_filter.1 hgmem
      have hgf : g = f := List.inj_on_of_nodup_map hnd hgfil.1 hf hgeq
      rw [hgf] at hgfil
      simp [hcf] at hgfil
    simp [hcf, hnotmem]
  · have hmem : f.1 ∈ (files.filter
        (fun g => !(classify lang g.2 == Verdict.retained))).map Prod.fst :=
      List.mem_map.2 ⟨f, List.mem_filter.2 ⟨hf, by simp [hcf]⟩, rfl⟩
    simp [hcf, hmem]

theorem countP_add_countP_not {α : Type} (p : α → Bool) (l : List α) :
    l.countP p + l.countP (fun a => !(p a)) = l.length := by
  induction l with
  | nil => rfl
  | cons a l ih =>
    simp only [List.countP_cons, List.length_cons]
    by_cases h : p a = true <;> simp [h] <;> omega

/-! ## Claims about the exclusion filter -/

/-- C2: the exclusion criteria are evaluated in the fixed order stub, then
empty-content, then below-size, short-circuiting on the first match: a stub
match classifies the document as stub whatever the other criteria would say;
the stub criterion applies only when the locale is in the stub-marker table;
and a document matching both the stub and the below-size criteria is counted
only under the stub counter. -/
theorem c2_exclusion_ordering (lang : String) (doc : HtmlDoc) :
    (is_exclusion_stub doc lang = true → classify lang doc = Verdict.stub) ∧
    (is_exclusion_stub doc lang = false → parse_html_p_content doc = none →
      classify lang doc = Verdict.empty) ∧
    (∀ c, is_exclusion_stub doc lang = false →
      parse_html_p_content doc = some c → is_exclusion_content_size c = true →
      classify lang doc = Verdict.belowSize) ∧
    (WIKI_STUB_TITLES.lookup lang = none → is_exclusion_stub doc lang = false) ∧
    (∀ fp, is_exclusion_stub doc lang = true →
      removeFilesLoop lang [(fp, doc)] = ([fp], 1, 0, 0)) := by
  refine ⟨?_, ?_, ?_, ?_, ?_⟩
  · intro h
    simp [classify, h]
  · intro h hp
    simp [classify, h, hp, is_exclusion_empty_content]
  · intro c h hp hsz
    simp [classify, h, hp, is_exclusion_empty_content, hsz]
  · intro h
    simp [is_exclusion_stub, h]
  · intro fp h
    simp [removeFilesLoop, classify, h]

theorem c2_witness :
    is_exclusion_stub ⟨["Wikipedia:Stub"], [['a']]⟩ "en" = true ∧
    is_exclusion_content_size ['a'] = true ∧
    classify "en" ⟨["Wikipedia:Stub"], [['a']]⟩ = Verdict.stub ∧
    removeFilesLoop "en" [("a.json", ⟨["Wikipedia:Stub"], [['a']]⟩)] =
      (["a.json"], 1, 0, 0) :=
  ⟨by decide, by decide,
    (c2_exclusion_ordering "en" _).1 (by decide),
    (c2_exclusion_ordering "en" _).2.2.2.2 "a.json" (by decide)⟩

/-- C5: one filter pass deletes exactly the documents classified as
excluded (with distinct file paths): the remaining directory is the retained
sublist, its size is the starting size minus the returned removal count,
deletions are deferred (classification of the whole input precedes any
deletion, which the definition of remove_files makes explicit), and a second
pass over the already-filtered directory removes zero documents and leaves
it unchanged. -/
theorem c5_deletion_monotonic (lang : String) (files : List (String × HtmlDoc))
    (hnd : (files.map Prod.fst).Nodup) :
    (remove_files files lang).1 =
      files.filter (fun f => classify lang f.2 == Verdict.retained) ∧
    (remove_files files lang).1.length =
      files.length - (remove_files files lang).2 ∧
    (remove_files files lang).2 ≤ files.length ∧
    remove_files ((remove_files files lang).1) lang =
      ((remove_files files lang).1, 0) := by
  have hstore := remove_files_store lang files hnd
  have hret := remove_files_ret lang files
  refine ⟨hstore, ?_, ?_, ?_⟩
  · rw [hstore, hret, ← List.countP_eq_length_filter]
    have h2 := countP_add_countP_not
      (fun f => (classify lang f.2 == Verdict.retained)) files
    omega
  · rw [hret]
    exact List.countP_le_length _
  · have hall : ∀ f ∈ (remove_files files lang).1,
        classify lang f.2 = Verdict.retained := by
      intro f hfm
      rw [hstore] at hfm
      simpa using (List.mem_filter.1 hfm).2
    have hfil : (remove_files files lang).1.filter
        (fun f => !(classify lang f.2 == Verdict.retained)) = [] :=
      List.filter_eq_nil_iff.2 (fun f hfm => by simp [hall f hfm])
    have h1 : (remove_files files lang).1.countP
        (fun f => classify lang f.2 == Verdict.stub) = 0 :=
      List.countP_eq_zero.2 (fun f hfm => by simp [hall f hfm])
    have h2 : (remove_files files lang).1.countP
        (fun f => classify lang f.2 == Verdict.empty) = 0 :=
      List.countP_eq_zero.2 (fun f hfm => by simp [hall f hfm])
    have h3 : (remove_files files lang).1.countP
        (fun f => classify lang f.2 == Verdict.belowSize) = 0 :=
      List.countP_eq_zero.2 (fun f hfm => by simp [hall f hfm])
    conv_lhs => rw [remove_files]
    rw [removeFilesLoop_eq, hfil, h1, h2, h3]
    simp [List.filter_eq_self]

theorem c5_witness :
    (([("a.json", (⟨["Wikipedia:Stub"], []⟩ : HtmlDoc)),
        ("b.json", ⟨[], []⟩)].map Prod.fst).Nodup) ∧
    (remove_files [("a.json", (⟨["Wikipedia:Stub"], []⟩ : HtmlDoc)),
        ("b.json", ⟨[], []⟩)] "en").2 ≤ 2 :=
  ⟨by decide,
    (c5_deletion_monotonic "en"
      [("a.json", ⟨["Wikipedia:Stub"], []⟩), ("b.json", ⟨[], []⟩)]
      (by decide)).2.2.1⟩

/-- C6 counterexample: the filter's return value is a single number (the
total), not a report carrying the per-criterion counts: a one-stub-file run
and a one-empty-file run have different per-criterion breakdowns yet
identical return values, so the per-criterion counts cannot be part of the
returned value. -/
theorem c6_counterexample :
    cull [("a.json", (⟨["Wikipedia:Stub"], []⟩ : HtmlDoc))] "en" =
      cull [("a.json", (⟨[], []⟩ : HtmlDoc))] "en" ∧
    (removeFilesLoop "en" [("a.json", (⟨["Wikipedia:Stub"], []⟩ : HtmlDoc))]).2 ≠
      (removeFilesLoop "en" [("a.json", (⟨[], []⟩ : HtmlDoc))]).2 :=
  ⟨by decide, by decide⟩

/-- C6 (amended): the exclusion filter computes per-criterion removal
counters whose sum it returns as its sole returned value (the per-criterion
counts themselves are printed to the console, not returned): the returned
total equals stub count plus empty-content count plus below-size count. -/
theorem c6_return_total_only (lang : String) (files : List (String × HtmlDoc)) :
    cull files lang =
      files.countP (fun f => classify lang f.2 == Verdict.stub) +
        files.countP (fun f => classify lang f.2 == Verdict.empty) +
        files.countP (fun f => classify lang f.2 == Verdict.belowSize) ∧
    cull files lang = (removeFilesLoop lang files).2.1 +
      (removeFilesLoop lang files).2.2.1 + (removeFilesLoop lang files).2.2.2 := by
  constructor
  · rw [cull, remove_files_ret, ← countP_verdicts]
  · rfl

/-- C9: the content extractor is total over parsed documents (the external
parser's best-effort parse turns any string, including empty or non-markup
garbage, into a document value, and the extractor is a total function on
those); it returns none exactly when the document has zero paragraph
elements, and otherwise the newline-join of the paragraph texts in document
order. -/
theorem c9_extraction_totality (doc : HtmlDoc) :
    (parse_html_p_content doc = none ↔ doc.paragraphs = []) ∧
    (doc.paragraphs ≠ [] →
      parse_html_p_content doc = some (List.intercalate ['\n'] doc.paragraphs)) := by
  constructor
  · by_cases h : doc.paragraphs = [] <;>
      simp [parse_html_p_content, h, List.length_pos]
  · intro h
    simp [parse_html_p_content, List.length_pos.2 h]

theorem c9_witness :
    ([['h'], ['i']] : List Text) ≠ [] ∧
    parse_html_p_content ⟨[], [['h'], ['i']]⟩ = some ['h', '\n', 'i'] :=
  ⟨by decide,
    ((c9_extraction_totality ⟨[], [['h'], ['i']]⟩).2 (by decide)).trans (by decide)⟩

end Morpholingo
